import Mathlib

/-!
Verification of the LinlinScrappy ad-library scraper.

The development shallowly embeds the pure computational core of the
JavaScript sources:

* the JS regular-expression matching used by the field extractor
  (`scrapeAdDetailsWithLynx` / `level2ScrapingWithLynx`), via a small
  backtracking matcher compiled from each source regex;
* the text-cleaning chains (trim, tag stripping, entity decoding,
  blank-line collapsing);
* the discovery stage (`scrapeAdList` / `level1Scraping`): id parsing,
  filtering, `new Map`-based deduplication, truncation;
* the detail pipeline loop of `processAds` with its counters, the video
  classifier, and the once-per-company logo set;
* the `ImageDownloader.downloadImage` / `downloadAdImages` state machine
  over an explicit file-system map.

Strings are modelled as `List Char`.  Effects (lynx invocation, HTTP
responses, wall-clock timestamps) are passed in as explicit inputs.
-/

/-- Characters are modelled directly; JS strings as `List Char`. -/
def strL (s : String) : List Char := s.data

/-- JS whitespace class `\s` (the code points relevant here: space, tab,
newline, carriage return, vertical tab, form feed, NBSP, BOM). -/
def isSpaceJS (c : Char) : Bool :=
  c == ' ' || c == '\t' || c == '\n' || c == '\r' ||
  c == Char.ofNat 11 || c == Char.ofNat 12 || c == Char.ofNat 160 ||
  c == Char.ofNat 0xFEFF

/-- JS `String.prototype.trim()`. -/
def jsTrim (s : List Char) : List Char :=
  ((s.dropWhile isSpaceJS).reverse.dropWhile isSpaceJS).reverse

/-- JS `hay.includes(needle)`: `containsSubstr needle hay`. -/
def containsSubstr (needle : List Char) : List Char → Bool
  | [] => needle.isPrefixOf []
  | c :: t => needle.isPrefixOf (c :: t) || containsSubstr needle t

/-- JS `s.split(needle)[0]` for a needle that need not occur
(`description.split("See more")[0]`). -/
def takeUntilSub (needle : List Char) : List Char → List Char
  | [] => []
  | c :: t => if needle.isPrefixOf (c :: t) then [] else c :: takeUntilSub needle t

/-- JS `String.prototype.toLowerCase()` (ASCII fragment, which is all the
format vocabulary uses). -/
def lowerStr (s : List Char) : List Char := s.map Char.toLower

/-! ## A small backtracking regex matcher

Each JS regex in the source is a concatenation of literals, character
classes under `*` (greedy), `*?` (lazy) or `+`, and a single capture
group.  `RItem` is that token language; `mtch` matches a token list
against a string with JS backtracking order (greedy prefers longer,
lazy prefers shorter), recording the suffixes at the group markers. -/

inductive RItem where
  | lit : List Char → RItem
  | star : (Char → Bool) → RItem
  | starL : (Char → Bool) → RItem
  | plus : (Char → Bool) → RItem
  | gOpen : RItem
  | gClose : RItem

/-- Result of an anchored match: suffixes at the group markers, and the
remaining input after the whole match. -/
structure MRes where
  openS : Option (List Char)
  closeS : Option (List Char)
  rem : List Char

/-- Anchored match of a token list against the empty string. -/
def mtchNil : List RItem → Option MRes
  | [] => some ⟨none, none, []⟩
  | .lit [] :: rest => mtchNil rest
  | .lit (_ :: _) :: _ => none
  | .star _ :: rest => mtchNil rest
  | .starL _ :: rest => mtchNil rest
  | .plus _ :: _ => none
  | .gOpen :: rest => (mtchNil rest).map (fun r => { r with openS := some [] })
  | .gClose :: rest => (mtchNil rest).map (fun r => { r with closeS := some [] })

/-- Anchored match against `c :: s`; `k` matches token lists against `s`. -/
def mtchCons (k : List RItem → Option MRes) (c : Char) (s : List Char) :
    List RItem → Option MRes
  | [] => some ⟨none, none, c :: s⟩
  | .lit [] :: rest => mtchCons k c s rest
  | .lit (d :: ds) :: rest => if d = c then k (.lit ds :: rest) else none
  | .star p :: rest =>
    if p c then
      match k (.star p :: rest) with
      | some r => some r
      | none => mtchCons k c s rest
    else mtchCons k c s rest
  | .starL p :: rest =>
    match mtchCons k c s rest with
    | some r => some r
    | none => if p c then k (.starL p :: rest) else none
  | .plus p :: rest => if p c then k (.star p :: rest) else none
  | .gOpen :: rest => (mtchCons k c s rest).map (fun r => { r with openS := some (c :: s) })
  | .gClose :: rest => (mtchCons k c s rest).map (fun r => { r with closeS := some (c :: s) })

/-- Anchored match of a token list at the start of `s`. -/
def mtch : List Char → List RItem → Option MRes
  | [], items => mtchNil items
  | c :: s, items => mtchCons (mtch s) c s items

/-- The captured group of a match result. -/
def grpOf (r : MRes) : Option (List Char) :=
  match r.openS, r.closeS with
  | some o, some c => some (o.take (o.length - c.length))
  | _, _ => none

/-- JS `str.match(re)`, leftmost match: the match result at the first
position where the pattern matches. -/
def searchPos (pat : List RItem) : List Char → Option MRes
  | [] => mtch [] pat
  | c :: s =>
    match mtch (c :: s) pat with
    | some r => some r
    | none => searchPos pat s

/-- JS `str.match(re)?.[1]`: the first capture of the leftmost match. -/
def searchGroup (pat : List RItem) (s : List Char) : Option (List Char) :=
  (searchPos pat s).bind grpOf

/-- JS `str.match(re)` with the `g` flag, collecting each match's capture
(fuel-structured so that it reduces; the fuel `s.length + 1` always
suffices). -/
def searchAllF : Nat → List RItem → List Char → List (List Char)
  | 0, _, _ => []
  | _ + 1, pat, [] =>
    match mtch [] pat with
    | some r => match grpOf r with | some g => [g] | none => []
    | none => []
  | n + 1, pat, c :: s =>
    match mtch (c :: s) pat with
    | some r =>
      let gs := match grpOf r with | some g => [g] | none => []
      if r.rem.length < s.length + 1 then gs ++ searchAllF n pat r.rem
      else gs ++ searchAllF n pat s
    | none => searchAllF n pat s

/-- All captures of the global matches of `pat` in `s`. -/
def searchAll (pat : List RItem) (s : List Char) : List (List Char) :=
  searchAllF (s.length + 1) pat s

/-- JS `str.replace(re, repl)` with the `g` flag (fuel-structured). -/
def replaceAllF : Nat → List RItem → List Char → List Char → List Char
  | 0, _, _, s => s
  | _ + 1, pat, repl, [] =>
    match mtch [] pat with
    | some _ => repl
    | none => []
  | n + 1, pat, repl, c :: s =>
    match mtch (c :: s) pat with
    | some r =>
      if r.rem.length < s.length + 1 then repl ++ replaceAllF n pat repl r.rem
      else repl ++ c :: replaceAllF n pat repl s
    | none => c :: replaceAllF n pat repl s

/-- Global regex replacement. -/
def replaceAllPat (pat : List RItem) (repl : List Char) (s : List Char) : List Char :=
  replaceAllF (s.length + 1) pat repl s

/-! ## Text cleaning primitives (the `.replace` chains of the source) -/

/-- `/<[^>]*>/g` — markup tags. -/
def tagPat : List RItem := [.lit ['<'], .star (fun c => c != '>'), .lit ['>']]

/-- `.replace(/<[^>]*>/g, '')`. -/
def stripTags (s : List Char) : List Char := replaceAllPat tagPat [] s

/-- `.replace(/&quot;/g, '"')`. -/
def repQuot (s : List Char) : List Char := replaceAllPat [.lit (strL "&quot;")] (strL "\"") s

/-- `.replace(/&amp;/g, '&')`. -/
def repAmp (s : List Char) : List Char := replaceAllPat [.lit (strL "&amp;")] (strL "&") s

/-- `.replace(/&#x27;/g, "'")` (the replacement is the apostrophe, U+0027). -/
def repX27 (s : List Char) : List Char :=
  replaceAllPat [.lit (strL "&#x27;")] [Char.ofNat 39] s

/-- `.replace(/&#34;/g, '"')`. -/
def rep34 (s : List Char) : List Char := replaceAllPat [.lit (strL "&#34;")] (strL "\"") s

/-- `/\n\s*\n/g` — consecutive blank lines. -/
def nlPat : List RItem := [.lit ['\n'], .star isSpaceJS, .lit ['\n']]

/-- `.replace(/\n\s*\n/g, '\n')`. -/
def collapseNl (s : List Char) : List Char := replaceAllPat nlPat (strL "\n") s

/-! ## The extractor's regexes, compiled to token lists

One definition per regex of `level2ScrapingWithLynx`
(`src/download-images-from-results.js:314-412`; `scrapeAdDetailsWithLynx`
in `src/unnamed/part_003` is identical except that it lacks the CTA
field). -/

/-- `/detail\/(\d+)/`. -/
def detailIdPat : List RItem :=
  [.lit (strL "detail/"), .gOpen, .plus Char.isDigit, .gClose]

/-- `/companyIds=([^&]+)/`. -/
def companyIdsPat : List RItem :=
  [.lit (strL "companyIds="), .gOpen, .plus (fun c => c != '&'), .gClose]

/-- `/class="sponsored-content-headline[^\>]*>[\s\S]*?<h2[^>]*>([\s\S]*?)<\/h2/`. -/
def headlinePat1 : List RItem :=
  [.lit (strL "class=\"sponsored-content-headline"), .star (fun c => c != '>'), .lit ['>'],
   .starL (fun _ => true), .lit (strL "<h2"), .star (fun c => c != '>'), .lit ['>'],
   .gOpen, .starL (fun _ => true), .gClose, .lit (strL "</h2")]

/-- `/class="sponsored-content-headline[^\>]*>[\s\S]*?<a[^>]*>([\s\S]*?)<\/a/`. -/
def headlinePat2 : List RItem :=
  [.lit (strL "class=\"sponsored-content-headline"), .star (fun c => c != '>'), .lit ['>'],
   .starL (fun _ => true), .lit (strL "<a"), .star (fun c => c != '>'), .lit ['>'],
   .gOpen, .starL (fun _ => true), .gClose, .lit (strL "</a")]

/-- `/data-tracking-control-name="ad_library_ad_preview_advertiser"[^>]*>\s*<[^>]*>\s*<[^>]*>([\s\S]*?)<\//`. -/
def companyPat1 : List RItem :=
  [.lit (strL "data-tracking-control-name=\"ad_library_ad_preview_advertiser\""),
   .star (fun c => c != '>'), .lit ['>'],
   .star isSpaceJS, .lit ['<'], .star (fun c => c != '>'), .lit ['>'],
   .star isSpaceJS, .lit ['<'], .star (fun c => c != '>'), .lit ['>'],
   .gOpen, .starL (fun _ => true), .gClose, .lit (strL "</")]

/-- `/aria-label="View organization page[^"]*"[^>]*>([\s\S]*?)</`. -/
def companyPat2 : List RItem :=
  [.lit (strL "aria-label=\"View organization page"), .star (fun c => c != '"'), .lit ['"'],
   .star (fun c => c != '>'), .lit ['>'],
   .gOpen, .starL (fun _ => true), .gClose, .lit ['<']]

/-- `/data-tracking-control-name="ad_library_ad_preview_advertiser"[^>]*>([\s\S]*?)</`. -/
def companyPat3 : List RItem :=
  [.lit (strL "data-tracking-control-name=\"ad_library_ad_preview_advertiser\""),
   .star (fun c => c != '>'), .lit ['>'],
   .gOpen, .starL (fun _ => true), .gClose, .lit ['<']]

/-- `/class="ad-preview__dynamic-dimensions-image[^>]*data-delayed-url="([^"]+)"/`. -/
def imagePat : List RItem :=
  [.lit (strL "class=\"ad-preview__dynamic-dimensions-image"), .star (fun c => c != '>'),
   .lit (strL "data-delayed-url=\""), .gOpen, .plus (fun c => c != '"'), .gClose, .lit ['"']]

/-- `/alt="([^"]+)"[^>]*class="ad-preview__dynamic-dimensions-image/`. -/
def imageAltPat1 : List RItem :=
  [.lit (strL "alt=\""), .gOpen, .plus (fun c => c != '"'), .gClose, .lit ['"'],
   .star (fun c => c != '>'), .lit (strL "class=\"ad-preview__dynamic-dimensions-image")]

/-- `/class="ad-preview__dynamic-dimensions-image[^>]*alt="([^"]+)"/`. -/
def imageAltPat2 : List RItem :=
  [.lit (strL "class=\"ad-preview__dynamic-dimensions-image"), .star (fun c => c != '>'),
   .lit (strL "alt=\""), .gOpen, .plus (fun c => c != '"'), .gClose, .lit ['"']]

/-- `/alt="([^"]+)"/` (used with the `g` flag for the alt-text fallback). -/
def altAnyPat : List RItem :=
  [.lit (strL "alt=\""), .gOpen, .plus (fun c => c != '"'), .gClose, .lit ['"']]

/-- `/data-tracking-control-name="ad_library_ad_preview_content_image"[\s\S]*?href="([^"]+)"/`. -/
def targetPat1 : List RItem :=
  [.lit (strL "data-tracking-control-name=\"ad_library_ad_preview_content_image\""),
   .starL (fun _ => true), .lit (strL "href=\""),
   .gOpen, .plus (fun c => c != '"'), .gClose, .lit ['"']]

/-- `/data-tracking-control-name="ad_library_ad_preview_headline_content"[\s\S]*?href="([^"]+)"/`. -/
def targetPat2 : List RItem :=
  [.lit (strL "data-tracking-control-name=\"ad_library_ad_preview_headline_content\""),
   .starL (fun _ => true), .lit (strL "href=\""),
   .gOpen, .plus (fun c => c != '"'), .gClose, .lit ['"']]

/-- `/class="commentary__content[^>]*>([\s\S]*?)<\/p>/`. -/
def descPat : List RItem :=
  [.lit (strL "class=\"commentary__content"), .star (fun c => c != '>'), .lit ['>'],
   .gOpen, .starL (fun _ => true), .gClose, .lit (strL "</p>")]

/-- `/alt="advertiser logo"[^>]*data-delayed-url="([^"]+)"/`. -/
def logoPat1 : List RItem :=
  [.lit (strL "alt=\"advertiser logo\""), .star (fun c => c != '>'),
   .lit (strL "data-delayed-url=\""), .gOpen, .plus (fun c => c != '"'), .gClose, .lit ['"']]

/-- `/data-delayed-url="([^"]+)"[^>]*alt="advertiser logo"/`. -/
def logoPat2 : List RItem :=
  [.lit (strL "data-delayed-url=\""), .gOpen, .plus (fun c => c != '"'), .gClose, .lit ['"'],
   .star (fun c => c != '>'), .lit (strL "alt=\"advertiser logo\"")]

/-- `/alt="advertiser logo"[^>]*src="([^"]+)"/`. -/
def logoPat3 : List RItem :=
  [.lit (strL "alt=\"advertiser logo\""), .star (fun c => c != '>'),
   .lit (strL "src=\""), .gOpen, .plus (fun c => c != '"'), .gClose, .lit ['"']]

/-- `/data-tracking-control-name="ad_library_ad_detail_cta"[\s\S]*?>([\s\S]*?)<\/button/`. -/
def ctaPat : List RItem :=
  [.lit (strL "data-tracking-control-name=\"ad_library_ad_detail_cta\""),
   .starL (fun _ => true), .lit ['>'],
   .gOpen, .starL (fun _ => true), .gClose, .lit (strL "</button")]

/-! ## The Record type and the field extractor

`AdData` is the record built by `level2ScrapingWithLynx`
(`src/download-images-from-results.js:305-419`) and by the identical
`scrapeAdDetailsWithLynx` (`src/unnamed/part_003:8-138`, which lacks only
the `cta` field).  The extraction body is pure in the fetched page text
(`stdout`) and the ad URL; `extractAdDetails` is that body. -/

structure AdData where
  adId : Option (List Char)
  sourceUrl : List Char
  headline : Option (List Char)
  company : Option (List Char)
  imageUrl : Option (List Char)
  imageAlt : Option (List Char)
  targetUrl : Option (List Char)
  description : Option (List Char)
  logoUrl : Option (List Char)
  adFormat : Option (List Char)
  cta : Option (List Char)
deriving DecidableEq, Repr

/-- Headline rule chain: pattern 1, else pattern 2 (raw capture). -/
def headlineRaw (stdout : List Char) : Option (List Char) :=
  match searchGroup headlinePat1 stdout with
  | some m => some m
  | none => searchGroup headlinePat2 stdout

/-- Company rule chain: advertiser nested-text, else organization-page
label, else bare advertiser-link text (raw capture). -/
def companyRaw (stdout : List Char) : Option (List Char) :=
  match searchGroup companyPat1 stdout with
  | some m => some m
  | none =>
    match searchGroup companyPat2 stdout with
    | some m => some m
    | none => searchGroup companyPat3 stdout

/-- Image-alt rule chain: the two co-located patterns, else the first
`alt` value in the document that is not `advertiser logo`. -/
def imageAltRaw (stdout : List Char) : Option (List Char) :=
  match searchGroup imageAltPat1 stdout with
  | some m => some m
  | none =>
    match searchGroup imageAltPat2 stdout with
    | some m => some m
    | none => (searchAll altAnyPat stdout).find? (fun g => g != strL "advertiser logo")

/-- Target-URL rule chain: content-image link, else headline-content link. -/
def targetRaw (stdout : List Char) : Option (List Char) :=
  match searchGroup targetPat1 stdout with
  | some m => some m
  | none => searchGroup targetPat2 stdout

/-- Logo-URL rule chain: the three patterns in source order. -/
def logoRaw (stdout : List Char) : Option (List Char) :=
  match searchGroup logoPat1 stdout with
  | some m => some m
  | none =>
    match searchGroup logoPat2 stdout with
    | some m => some m
    | none => searchGroup logoPat3 stdout

/-- Ad format: first of the fixed vocabulary literals found anywhere. -/
def adFormatOf (stdout : List Char) : Option (List Char) :=
  if containsSubstr (strL "Single Image Ad") stdout then some (strL "Single Image Ad")
  else if containsSubstr (strL "Video Ad") stdout then some (strL "Video Ad")
  else if containsSubstr (strL "Carousel Ad") stdout then some (strL "Carousel Ad")
  else if containsSubstr (strL "Collection Ad") stdout then some (strL "Collection Ad")
  else if containsSubstr (strL "SPONSORED_STATUS_UPDATE") stdout then
    some (strL "SPONSORED_STATUS_UPDATE")
  else none

/-- The description cleaning chain, exactly in source order:
`.trim() → strip tags → &quot; → &amp; → &#x27; → &#34; → collapse blank
lines → .trim()`, then cut at `See more` and re-trim when present. -/
def descriptionOf (stdout : List Char) : Option (List Char) :=
  match searchGroup descPat stdout with
  | none => none
  | some m =>
    let d := jsTrim (collapseNl (rep34 (repX27 (repAmp (repQuot (stripTags (jsTrim m)))))))
    if containsSubstr (strL "See more") d then jsTrim (takeUntilSub (strL "See more") d)
    else d

/-- The pure body of `level2ScrapingWithLynx` applied to the lynx output. -/
def extractAdDetails (stdout : List Char) (adUrl : List Char) : AdData where
  adId := searchGroup detailIdPat adUrl
  sourceUrl := adUrl
  headline := (headlineRaw stdout).map (fun m => repAmp (repQuot (stripTags (jsTrim m))))
  company := (companyRaw stdout).map (fun m => (stripTags (jsTrim m)).take 100)
  imageUrl := (searchGroup imagePat stdout).map repAmp
  imageAlt := (imageAltRaw stdout).map (fun m => repAmp (repQuot m))
  targetUrl := (targetRaw stdout).map repAmp
  description := descriptionOf stdout
  logoUrl := (logoRaw stdout).map repAmp
  adFormat := adFormatOf stdout
  cta := (searchGroup ctaPat stdout).map (fun m => stripTags (jsTrim m))

/-- `scrapeAdDetailsWithLynx` with the lynx invocation passed as an
explicit collaborator: on fetch failure the error is rethrown wrapped,
otherwise the pure extraction runs on the fetched text. -/
def scrapeAdDetailsWithLynx (lynx : List Char → Except (List Char) (List Char))
    (adUrl : List Char) : Except (List Char) AdData :=
  match lynx adUrl with
  | .error e => .error (strL "Failed to scrape " ++ adUrl ++ strL ": " ++ e)
  | .ok stdout => .ok (extractAdDetails stdout adUrl)

/-! ## Record classifier and the detail-pipeline loop

`processAds` (`src/download-images-from-results.js:421-579`): the
per-candidate loop of Level 2/3 with its counters, the video-ad gate,
and the once-per-company logo set.  External effects are explicit
per-candidate inputs (`CandStep`); the two ghost fields `logoAttempts`
and `logoSuccesses` count entries into, and successful completions of,
the companion-logo branch. -/

/-- JS truthiness of a nullable string (`null` and `""` are falsy). -/
def truthyS : Option (List Char) → Bool
  | none => false
  | some s => !s.isEmpty

/-- `adDetails.adFormat && adDetails.adFormat.toLowerCase().includes('video')`
(`src/download-images-from-results.js:491`). -/
def isVideoAdJS (format : Option (List Char)) : Bool :=
  match format with
  | none => false
  | some s => if s.isEmpty then false else containsSubstr (strL "video") (lowerStr s)

/-- The `results.summary` counters of `processAds`. -/
structure Summary where
  totalAdsFound : Nat
  totalAdsProcessed : Nat
  successfulDetails : Nat
  failedDetails : Nat
  videoAdsSkipped : Nat
  successfulDownloads : Nat
  failedDownloads : Nat
deriving DecidableEq, Repr

def initSummary : Summary := ⟨0, 0, 0, 0, 0, 0, 0⟩

/-- Loop state of `processAds`: the growing record list, the counters,
the `downloadedLogosByCompany` set, and ghost companion-fetch counters. -/
structure PState where
  processedAds : List AdData
  summary : Summary
  downloadedLogosByCompany : List (List Char)
  logoAttempts : Nat
  logoSuccesses : Nat
deriving DecidableEq, Repr

def initPState : PState := ⟨[], initSummary, [], 0, 0⟩

/-- The external outcomes one loop iteration can observe: the result of
`level2ScrapingWithLynx`, the result of `downloadAdImages` (one success
flag per outcome entry) if invoked, and whether the logo
`downloadImage` resolves if invoked. -/
structure CandStep where
  fetch : Except (List Char) AdData
  imageCall : Except (List Char) (List Bool)
  logoOk : Bool

/-- The Level-3 block (`src/download-images-from-results.js:506-542`):
main-image download counters, then the once-per-company logo branch. -/
def level3Step (companyId : Option (List Char)) (c : CandStep) (ad : AdData)
    (st : PState) : PState :=
  let st1 :=
    if truthyS ad.imageUrl then
      match c.imageCall with
      | .ok flags =>
        { st with summary :=
          { st.summary with
            successfulDownloads := st.summary.successfulDownloads + flags.count true,
            failedDownloads :=
              st.summary.failedDownloads + (flags.length - flags.count true) } }
      | .error _ =>
        { st with summary :=
          { st.summary with failedDownloads := st.summary.failedDownloads + 1 } }
    else st
  match companyId with
  | some cid =>
    if truthyS ad.logoUrl && !cid.isEmpty
        && !(st1.downloadedLogosByCompany.contains cid) then
      if c.logoOk then
        { st1 with
          logoAttempts := st1.logoAttempts + 1,
          logoSuccesses := st1.logoSuccesses + 1,
          downloadedLogosByCompany := st1.downloadedLogosByCompany ++ [cid] }
      else { st1 with logoAttempts := st1.logoAttempts + 1 }
    else st1
  | none => st1

/-- One iteration of the `processAds` per-candidate loop
(`src/download-images-from-results.js:482-555`). -/
def processStep (scrapingLevel : Nat) (companyId : Option (List Char))
    (st : PState) (c : CandStep) : PState :=
  let st1 :=
    match c.fetch with
    | .error _ =>
      { st with summary :=
        { st.summary with failedDetails := st.summary.failedDetails + 1 } }
    | .ok adDetails =>
      if truthyS adDetails.headline then
        if isVideoAdJS adDetails.adFormat then
          { st with summary :=
            { st.summary with videoAdsSkipped := st.summary.videoAdsSkipped + 1 } }
        else
          let stA :=
            { st with
              processedAds := st.processedAds ++ [adDetails],
              summary :=
                { st.summary with
                  successfulDetails := st.summary.successfulDetails + 1 } }
          if 3 ≤ scrapingLevel then level3Step companyId c adDetails stA else stA
      else
        { st with summary :=
          { st.summary with failedDetails := st.summary.failedDetails + 1 } }
  { st1 with summary :=
    { st1.summary with totalAdsProcessed := st1.summary.totalAdsProcessed + 1 } }

/-- The whole Level-2/3 loop: fold `processStep` over the candidates. -/
def runLoop (scrapingLevel : Nat) (companyId : Option (List Char))
    (cands : List CandStep) (st : PState) : PState :=
  cands.foldl (processStep scrapingLevel companyId) st

/-! ## The image downloader (`src/unnamed/part_002`, `ImageDownloader`)

`downloadImage` is modelled as a transition on an explicit file-system
map.  The stream of events one call can observe is a `FetchEvent`:
`fs.createWriteStream` creates (truncates) the destination file before
the request, and only the file-stream error handler unlinks it. -/

/-- A file system: a finite map from paths to contents. -/
abbrev FS := List (List Char × List Char)

def fsWrite (fs : FS) (p v : List Char) : FS :=
  if fs.any (fun e => e.1 == p) then fs.map (fun e => if e.1 == p then (p, v) else e)
  else fs ++ [(p, v)]

def fsRemove (fs : FS) (p : List Char) : FS := fs.filter (fun e => e.1 != p)

def fsExists (fs : FS) (p : List Char) : Bool := fs.any (fun e => e.1 == p)

/-- `path.join(dir, name)` for the flat paths used here. -/
def pathJoin (d n : List Char) : List Char := d ++ strL "/" ++ n

/-- What one `client.get` request can result in. -/
inductive FetchEvent where
  | ok (body : List Char)
  | httpError (status : Nat) (statusMessage : List Char)
  | streamError (written : List Char) (msg : List Char)
  | transportError (msg : List Char)
  | timeout

/-- The resolve value of `downloadImage`. -/
structure DLOk where
  fileName : List Char
  filePath : List Char
  size : Nat
deriving DecidableEq, Repr

/-- `ImageDownloader.downloadImage` (`src/unnamed/part_002:44-100`):
create the write stream (the file appears, empty), then either pipe the
body to completion (resolve), reject on non-200 / transport error /
timeout leaving the file, or unlink on a file-stream error after a
partial write (the only path that removes the file). -/
def downloadImage (downloadDir fileName : List Char) (ev : FetchEvent) (fs : FS) :
    FS × Except (List Char) DLOk :=
  let filePath := pathJoin downloadDir fileName
  let fs1 := fsWrite fs filePath []
  match ev with
  | .ok body => (fsWrite fs1 filePath body, .ok ⟨fileName, filePath, body.length⟩)
  | .httpError _ msg => (fs1, .error (strL "HTTP : " ++ msg))
  | .streamError written msg => (fsRemove (fsWrite fs1 filePath written) filePath, .error msg)
  | .transportError msg => (fs1, .error msg)
  | .timeout => (fs1, .error (strL "Request timeout"))

/-- One entry of the list `downloadAdImages` returns. -/
structure DLOutcome where
  typ : List Char
  error : Option (List Char)
  url : Option (List Char)
  fileName : Option (List Char)
  filePath : Option (List Char)
  size : Option Nat
deriving DecidableEq, Repr

/-- `ImageDownloader.downloadAdImages` (`src/unnamed/part_002:102-130`):
if the record has an image URL, attempt the one main-image download,
catching any failure into an outcome entry with an `error` field; the
file name (`generateFileName` uses `Date.now()`) is an explicit input. -/
def downloadAdImages (downloadDir : List Char) (ad : AdData) (fileName : List Char)
    (ev : FetchEvent) (fs : FS) : FS × List DLOutcome :=
  if truthyS ad.imageUrl then
    match downloadImage downloadDir fileName ev fs with
    | (fs2, .ok r) =>
      (fs2, [⟨strL "main_image", none, ad.imageUrl, some r.fileName, some r.filePath,
              some r.size⟩])
    | (fs2, .error e) =>
      (fs2, [⟨strL "main_image", some e, ad.imageUrl, none, none, none⟩])
  else (fs, [])

/-! ## Discovery (`scrapeAdList`, `src/level1-only.js:77-209`)

The pure tail of Level 1 once the rendered page's anchors are read:
map each anchor to `{url, id, text}` with the id parsed from the href,
drop anchors whose id is empty, deduplicate through `new Map(... [ad.id,
ad] ...)` (key order = first insertion, value = last write), and
truncate to `maxAds`. -/

structure Anchor where
  href : List Char
  textContent : List Char
deriving DecidableEq, Repr

structure AdRef where
  url : List Char
  id : List Char
  text : List Char
deriving DecidableEq, Repr

/-- `{ url: link.href, id: link.href.match(/detail\/(\d+)/)?.[1] || '',
text: link.textContent?.trim() || '' }`. -/
def toAdRef (l : Anchor) : AdRef :=
  ⟨l.href, (searchGroup detailIdPat l.href).getD [], jsTrim l.textContent⟩

/-- `Map.prototype.set`: overwrite the value in place if the key exists,
else append. -/
def mapSet (m : List (List Char × AdRef)) (k : List Char) (v : AdRef) :
    List (List Char × AdRef) :=
  if m.any (fun e => e.1 == k) then m.map (fun e => if e.1 == k then (k, v) else e)
  else m ++ [(k, v)]

/-- `new Map(allAds.map(ad => [ad.id, ad]))`. -/
def jsMapFrom (l : List AdRef) : List (List Char × AdRef) :=
  l.foldl (fun m ad => mapSet m ad.id ad) []

/-- The pure core of `scrapeAdList`: parse, filter, deduplicate, truncate. -/
def scrapeAdListCore (anchors : List Anchor) (maxAds : Nat) : List AdRef :=
  let allAds := (anchors.map toAdRef).filter (fun ad => !ad.id.isEmpty)
  let uniqueAds := (jsMapFrom allAds).map Prod.snd
  uniqueAds.take maxAds

/-! ## Reference definitions written from the spec's words

These are *not* translations of the source; they state what the spec
claims, to be compared against the source embedding above. -/

/-- Spec (§4.1): the full text-cleaning the spec claims for *every*
extracted text field: trim, strip all markup tags, decode the four
entity escapes, collapse consecutive blank lines. -/
def cleanPerSpec (v : List Char) : List Char :=
  collapseNl (rep34 (repX27 (repAmp (repQuot (stripTags (jsTrim v))))))

/-- Spec (§4.1): the URL has a `detail/<digits>` segment starting at this
position. -/
def detailAtHere (s : List Char) : Bool :=
  (strL "detail/").isPrefixOf s &&
    (match s.drop 7 with | [] => false | d :: _ => d.isDigit)

/-- Spec (§4.1): the URL contains a `.../detail/<digits>` segment. -/
def hasDetailDigits : List Char → Bool
  | [] => detailAtHere []
  | c :: s => detailAtHere (c :: s) || hasDetailDigits s

/-- The last element of `l` whose id is `k`, defaulting to `dflt`. -/
def lastWithId (l : List AdRef) (k : List Char) (dflt : AdRef) : AdRef :=
  ((l.filter (fun a => a.id == k)).getLast?).getD dflt

/-- Reference deduplication per the amended claim: ids in first-occurrence
order, each carrying the *last* occurrence's entry. -/
def dedupeKeepLast : List AdRef → List AdRef
  | [] => []
  | a :: r =>
    lastWithId (a :: r) a.id a :: dedupeKeepLast (r.filter (fun x => x.id != a.id))
termination_by l => l.length
decreasing_by
  simp only [List.length_cons]
  exact Nat.lt_succ_of_le (List.length_filter_le _ _)

/-- Key membership in an association list (the `Map.has` of the model). -/
def keyMem (m : List (List Char × AdRef)) (k : List Char) : Bool :=
  m.any (fun e => e.1 == k)

/-- Per-candidate Record outcome of one `processAds` iteration: the record
appended to `processedAds`, if any. -/
def candRecord (c : CandStep) : Option AdData :=
  match c.fetch with
  | .error _ => none
  | .ok ad => if truthyS ad.headline && !(isVideoAdJS ad.adFormat) then some ad else none

/-- Per-candidate predicate: this iteration increments `failedDetails`. -/
def candFailed (c : CandStep) : Bool :=
  match c.fetch with
  | .error _ => true
  | .ok ad => !truthyS ad.headline

/-- Per-candidate predicate: this iteration increments `videoAdsSkipped`. -/
def candVideo (c : CandStep) : Bool :=
  match c.fetch with
  | .error _ => false
  | .ok ad => truthyS ad.headline && isVideoAdJS ad.adFormat

/-! ## Concrete instances used by witnesses and counterexamples -/

/-- A record with every nullable field absent. -/
def baseRec : AdData := ⟨none, [], none, none, none, none, none, none, none, none, none⟩

/-- A processable record: a headline and nothing else. -/
def recPlain (h : String) : AdData := { baseRec with headline := some (strL h) }

/-- A record the classifier flags: `format = "Video Ad"`. -/
def recVideo : AdData :=
  { baseRec with headline := some (strL "V"), adFormat := some (strL "Video Ad") }

/-- A record with a headline and a logo URL (no main image). -/
def recLogoOnly : AdData :=
  { baseRec with headline := some (strL "H"), logoUrl := some (strL "http://logo.example/l.png") }

/-- A record with a main-image URL only. -/
def recImgOnly : AdData := { baseRec with imageUrl := some (strL "http://img.example/i.jpg") }

/-- A candidate whose fetch succeeds with `ad`, downloads succeeding
vacuously, logo download resolving iff `lOk`. -/
def okStep (ad : AdData) (lOk : Bool) : CandStep := ⟨.ok ad, .ok [], lOk⟩

/-- A candidate whose `level2ScrapingWithLynx` call throws. -/
def errStep : CandStep := ⟨.error (strL "fetch failed"), .ok [], true⟩

/-- Markup whose headline block contains the `&#x27;` escape. -/
def mHead27 : List Char :=
  strL "<div class=\"sponsored-content-headline\"><h2>A&#x27;B</h2></div>"

/-- Markup matching company Rule 2 (organization-page label) but neither
Rule 1 nor Rule 3 (no advertiser tracking attribute). -/
def mCompany2 : List Char :=
  strL "<a aria-label=\"View organization page for Acme\" class=\"x\">Acme Corp</a>"

/-- Markup matching no extraction rule at all. -/
def mBlankPage : List Char := strL "<p>nothing here</p>"

/-- An anchor with the given href and empty text. -/
def anch (h : String) : Anchor := ⟨strL h, []⟩

/-- The discovery counterexample anchors: ids 5, 3, 5, 7 in that order,
with the two id-5 anchors carrying different URLs. -/
def anchors5357 : List Anchor :=
  [anch "https://x/ad-library/detail/5?v=a", anch "https://x/ad-library/detail/3",
   anch "https://x/ad-library/detail/5?v=b", anch "https://x/ad-library/detail/7"]

/-! ## The per-field cleaning chains, named

Each is the exact `.replace` chain the source applies to that field
(`src/download-images-from-results.js:319,329,352,412`). -/

/-- headline: `.trim().replace(tags).replace(&quot;).replace(&amp;)`. -/
def cleanHeadlineJS (v : List Char) : List Char := repAmp (repQuot (stripTags (jsTrim v)))

/-- company: `.trim().replace(tags).substring(0, 100)` — no entity decoding. -/
def cleanCompanyJS (v : List Char) : List Char := (stripTags (jsTrim v)).take 100

/-- imageAlt: `.replace(&quot;).replace(&amp;)` — no trim, no tag stripping. -/
def cleanImageAltJS (v : List Char) : List Char := repAmp (repQuot v)

/-- callToAction: `.trim().replace(tags)` — no entity decoding. -/
def cleanCtaJS (v : List Char) : List Char := stripTags (jsTrim v)

/-! ## Helper lemmas: the detail-pipeline step -/

theorem level3Step_preserves (cid : Option (List Char)) (c : CandStep) (ad : AdData)
    (st : PState) :
    (level3Step cid c ad st).processedAds = st.processedAds ∧
    (level3Step cid c ad st).summary.totalAdsProcessed = st.summary.totalAdsProcessed ∧
    (level3Step cid c ad st).summary.successfulDetails = st.summary.successfulDetails ∧
    (level3Step cid c ad st).summary.failedDetails = st.summary.failedDetails ∧
    (level3Step cid c ad st).summary.videoAdsSkipped = st.summary.videoAdsSkipped := by
  obtain ⟨fetch, ic, lo⟩ := c
  unfold level3Step
  dsimp only
  cases cid with
  | none => by_cases h1 : truthyS ad.imageUrl <;> cases ic <;> simp [h1]
  | some cv =>
    by_cases h1 : truthyS ad.imageUrl <;> cases ic <;> cases lo <;> simp [h1] <;>
      split <;> simp

theorem processStep_char (level : Nat) (cid : Option (List Char)) (st : PState)
    (c : CandStep) :
    (processStep level cid st c).summary.totalAdsProcessed
        = st.summary.totalAdsProcessed + 1 ∧
    (processStep level cid st c).processedAds
        = st.processedAds ++ (candRecord c).toList ∧
    (processStep level cid st c).summary.successfulDetails
        = st.summary.successfulDetails + (if (candRecord c).isSome then 1 else 0) ∧
    (processStep level cid st c).summary.failedDetails
        = st.summary.failedDetails + (if candFailed c then 1 else 0) ∧
    (processStep level cid st c).summary.videoAdsSkipped
        = st.summary.videoAdsSkipped + (if candVideo c then 1 else 0) := by
  obtain ⟨fetch, ic, lo⟩ := c
  cases fetch with
  | error e => simp [processStep, candRecord, candFailed, candVideo]
  | ok ad =>
    by_cases hh : truthyS ad.headline
    · by_cases hv : isVideoAdJS ad.adFormat
      · simp [processStep, candRecord, candFailed, candVideo, hh, hv]
      · by_cases hl : 3 ≤ level
        · have h3 := level3Step_preserves cid ⟨.ok ad, ic, lo⟩ ad
            { st with
              processedAds := st.processedAds ++ [ad],
              summary :=
                { st.summary with
                  successfulDetails := st.summary.successfulDetails + 1 } }
          simp [processStep, candRecord, candFailed, candVideo, hh, hv, hl] at h3 ⊢
          simp [h3.1, h3.2.1, h3.2.2.1, h3.2.2.2.1, h3.2.2.2.2]
        · simp [processStep, candRecord, candFailed, candVideo, hh, hv, hl]
    · simp [processStep, candRecord, candFailed, candVideo, hh]

theorem cand_trichotomy (c : CandStep) :
    (if (candRecord c).isSome then 1 else 0) + (if candFailed c then 1 else 0)
      + (if candVideo c then 1 else 0) = 1 := by
  obtain ⟨fetch, ic, lo⟩ := c
  cases fetch with
  | error e => simp [candRecord, candFailed, candVideo]
  | ok ad =>
    by_cases hh : truthyS ad.headline <;> by_cases hv : isVideoAdJS ad.adFormat <;>
      simp [candRecord, candFailed, candVideo, hh, hv]

theorem runLoop_char (level : Nat) (cid : Option (List Char)) :
    ∀ (cands : List CandStep) (st : PState),
    (runLoop level cid cands st).summary.totalAdsProcessed
        = st.summary.totalAdsProcessed + cands.length ∧
    (runLoop level cid cands st).processedAds
        = st.processedAds ++ cands.filterMap candRecord ∧
    (runLoop level cid cands st).summary.successfulDetails
        = st.summary.successfulDetails + cands.countP (fun c => (candRecord c).isSome) ∧
    (runLoop level cid cands st).summary.failedDetails
        = st.summary.failedDetails + cands.countP candFailed ∧
    (runLoop level cid cands st).summary.videoAdsSkipped
        = st.summary.videoAdsSkipped + cands.countP candVideo := by
  intro cands
  induction cands with
  | nil => intro st; simp [runLoop]
  | cons c cs ih =>
    intro st
    obtain ⟨h1, h2, h3, h4, h5⟩ := processStep_char level cid st c
    obtain ⟨g1, g2, g3, g4, g5⟩ := ih (processStep level cid st c)
    have hr : runLoop level cid (c :: cs) st
        = runLoop level cid cs (processStep level cid st c) := rfl
    rw [hr]
    refine ⟨?_, ?_, ?_, ?_, ?_⟩
    · rw [g1, h1]; simp; omega
    · rw [g2, h2, List.filterMap_cons]
      cases candRecord c <;> simp
    · rw [g3, h3, List.countP_cons]
      by_cases hc : (candRecord c).isSome <;> simp [hc] <;> omega
    · rw [g4, h4, List.countP_cons]
      by_cases hc : candFailed c <;> simp [hc] <;> omega
    · rw [g5, h5, List.countP_cons]
      by_cases hc : candVideo c <;> simp [hc] <;> omega

theorem countP_trichotomy (cands : List CandStep) :
    cands.countP (fun c => (candRecord c).isSome) + cands.countP candFailed
      + cands.countP candVideo = cands.length := by
  induction cands with
  | nil => simp
  | cons c cs ih =>
    have ht := cand_trichotomy c
    simp only [List.countP_cons, List.length_cons]
    omega

/-! ## Helper lemmas: the companion-logo set -/

theorem level3Step_logo_cases (cid : Option (List Char)) (c : CandStep) (ad : AdData)
    (st : PState) :
    ((level3Step cid c ad st).downloadedLogosByCompany = st.downloadedLogosByCompany ∧
     (level3Step cid c ad st).logoSuccesses = st.logoSuccesses) ∨
    (∃ cv, cid = some cv ∧ st.downloadedLogosByCompany.contains cv = false ∧
     (level3Step cid c ad st).downloadedLogosByCompany
        = st.downloadedLogosByCompany ++ [cv] ∧
     (level3Step cid c ad st).logoSuccesses = st.logoSuccesses + 1) := by
  obtain ⟨fetch, ic, lo⟩ := c
  unfold level3Step
  dsimp only
  cases cid with
  | none =>
    left
    by_cases h1 : truthyS ad.imageUrl <;> cases ic <;> simp [h1]
  | some cv =>
    by_cases h1 : truthyS ad.imageUrl <;> cases ic <;> cases lo <;> simp [h1] <;>
      split <;> simp_all

theorem processStep_logo_cases (level : Nat) (cid : Option (List Char)) (st : PState)
    (c : CandStep) :
    ((processStep level cid st c).downloadedLogosByCompany = st.downloadedLogosByCompany ∧
     (processStep level cid st c).logoSuccesses = st.logoSuccesses) ∨
    (∃ cv, cid = some cv ∧ st.downloadedLogosByCompany.contains cv = false ∧
     (processStep level cid st c).downloadedLogosByCompany
        = st.downloadedLogosByCompany ++ [cv] ∧
     (processStep level cid st c).logoSuccesses = st.logoSuccesses + 1) := by
  obtain ⟨fetch, ic, lo⟩ := c
  cases fetch with
  | error e => left; simp [processStep]
  | ok ad =>
    by_cases hh : truthyS ad.headline
    · by_cases hv : isVideoAdJS ad.adFormat
      · left; simp [processStep, hh, hv]
      · by_cases hl : 3 ≤ level
        · have h3 := level3Step_logo_cases cid ⟨.ok ad, ic, lo⟩ ad
            { st with
              processedAds := st.processedAds ++ [ad],
              summary :=
                { st.summary with
                  successfulDetails := st.summary.successfulDetails + 1 } }
          simp [processStep, hh, hv, hl]
          simpa using h3
        · left; simp [processStep, hh, hv, hl]
    · left; simp [processStep, hh]

theorem runLoop_logo_inv (level : Nat) (cid : Option (List Char)) :
    ∀ (cands : List CandStep) (st : PState),
    st.logoSuccesses = st.downloadedLogosByCompany.length →
    (st.downloadedLogosByCompany = [] ∨
      ∃ cv, cid = some cv ∧ st.downloadedLogosByCompany = [cv]) →
    (runLoop level cid cands st).logoSuccesses
        = (runLoop level cid cands st).downloadedLogosByCompany.length ∧
    ((runLoop level cid cands st).downloadedLogosByCompany = [] ∨
      ∃ cv, cid = some cv ∧ (runLoop level cid cands st).downloadedLogosByCompany = [cv]) := by
  intro cands
  induction cands with
  | nil => intro st h1 h2; exact ⟨h1, h2⟩
  | cons c cs ih =>
    intro st h1 h2
    have hr : runLoop level cid (c :: cs) st
        = runLoop level cid cs (processStep level cid st c) := rfl
    rw [hr]
    rcases processStep_logo_cases level cid st c with ⟨e1, e2⟩ | ⟨cv, hcv, hco, e1, e2⟩
    · exact ih _ (by rw [e1, e2]; exact h1) (by rw [e1]; exact h2)
    · refine ih _ ?_ ?_
      · rcases h2 with h2 | ⟨cv2, hcv2, h2⟩
        · rw [e1, e2, h1, h2]; simp
        · rw [hcv2] at hcv
          have : cv2 = cv := by injection hcv
          subst this
          rw [h2] at hco
          simp at hco
      · rcases h2 with h2 | ⟨cv2, hcv2, h2⟩
        · right; exact ⟨cv, hcv, by rw [e1, h2]; simp⟩
        · rw [hcv2] at hcv
          have : cv2 = cv := by injection hcv
          subst this
          rw [h2] at hco
          simp at hco

/-! ## Helper lemmas: the file-system map -/

theorem fsExists_fsWrite (fs : FS) (p v : List Char) : fsExists (fsWrite fs p v) p = true := by
  unfold fsExists fsWrite
  split
  · next h =>
    rw [List.any_eq_true] at h ⊢
    obtain ⟨e, he, hq⟩ := h
    refine ⟨(p, v), List.mem_map.2 ⟨e, he, by simp [hq]⟩, by simp⟩
  · simp

theorem fsExists_fsRemove (fs : FS) (p : List Char) : fsExists (fsRemove fs p) p = false := by
  unfold fsExists fsRemove
  rw [Bool.eq_false_iff]
  intro h
  rw [List.any_eq_true] at h
  obtain ⟨e, he, hq⟩ := h
  rw [List.mem_filter] at he
  simp at hq
  simp [hq] at he

/-! ## Helper lemmas: the matcher on the `detail/(\d+)` pattern -/

theorem mtch_lit (rest : List RItem) :
    ∀ (cs : List Char) (s : List Char),
    mtch s (.lit cs :: rest)
      = if cs.isPrefixOf s then mtch (s.drop cs.length) rest else none := by
  intro cs
  induction cs with
  | nil => intro s; cases s <;> simp [mtch, mtchNil, mtchCons]
  | cons d ds ih =>
    intro s
    cases s with
    | nil => simp [mtch, mtchNil]
    | cons c s2 =>
      show mtchCons (mtch s2) c s2 (.lit (d :: ds) :: rest) = _
      rw [mtchCons]
      by_cases hdc : d = c
      · subst hdc
        rw [if_pos rfl]
        show mtch s2 (.lit ds :: rest) = _
        rw [ih s2, List.isPrefixOf_cons₂]
        simp
      · rw [if_neg hdc, List.isPrefixOf_cons₂]
        have : (d == c) = false := by simp [hdc]
        simp [this]

theorem mtch_gOpen (rest : List RItem) (s : List Char) :
    mtch s (.gOpen :: rest) = (mtch s rest).map (fun r => { r with openS := some s }) := by
  cases s <;> rfl

theorem mtch_star_gClose (p : Char → Bool) :
    ∀ (s : List Char), (mtch s [.star p, .gClose]).isSome = true := by
  intro s
  induction s with
  | nil => rfl
  | cons c s2 ih =>
    show (mtchCons (mtch s2) c s2 [.star p, .gClose]).isSome = true
    rw [mtchCons]
    by_cases hp : p c
    · rw [if_pos hp]
      rcases hm : mtch s2 [.star p, .gClose] with _ | r
      · rw [hm] at ih; simp at ih
      · simp
    · rw [if_neg hp]; rfl

theorem mtch_plus_gClose (p : Char → Bool) (s : List Char) :
    (mtch s [.plus p, .gClose]).isSome
      = match s with | [] => false | c :: _ => p c := by
  cases s with
  | nil => rfl
  | cons c s2 =>
    show (mtchCons (mtch s2) c s2 [.plus p, .gClose]).isSome = p c
    rw [mtchCons]
    by_cases hp : p c
    · rw [if_pos hp, hp]
      exact mtch_star_gClose p s2
    · rw [if_neg hp]
      simp [hp]

theorem mtch_detail_isSome (s : List Char) :
    (mtch s detailIdPat).isSome = detailAtHere s := by
  show (mtch s (.lit (strL "detail/") :: [.gOpen, .plus Char.isDigit, .gClose])).isSome = _
  rw [mtch_lit]
  unfold detailAtHere
  by_cases hpre : (strL "detail/").isPrefixOf s
  · rw [if_pos hpre, hpre]
    rw [mtch_gOpen]
    have hmap : ∀ (o : Option MRes) (f : MRes → MRes), (o.map f).isSome = o.isSome := by
      intro o f; cases o <;> rfl
    rw [hmap]
    rw [mtch_plus_gClose]
    have h7 : (strL "detail/").length = 7 := rfl
    rw [h7]
    simp
  · rw [if_neg hpre]
    have : (strL "detail/").isPrefixOf s = false := by simp [hpre]
    rw [this]
    rfl

theorem searchPos_detail_none :
    ∀ (u : List Char), hasDetailDigits u = false → searchPos detailIdPat u = none := by
  intro u
  induction u with
  | nil =>
    intro h
    unfold hasDetailDigits at h
    show mtch [] detailIdPat = none
    have := mtch_detail_isSome []
    rw [h] at this
    exact Option.not_isSome_iff_eq_none.1 (by simp [this])
  | cons c s ih =>
    intro h
    unfold hasDetailDigits at h
    rw [Bool.or_eq_false_iff] at h
    have h1 := mtch_detail_isSome (c :: s)
    rw [h.1] at h1
    have h2 : mtch (c :: s) detailIdPat = none :=
      Option.not_isSome_iff_eq_none.1 (by simp [h1])
    show (match mtch (c :: s) detailIdPat with
          | some r => some r
          | none => searchPos detailIdPat s) = none
    rw [h2]
    exact ih h.2

/-! ## Helper lemmas: the `new Map` deduplication -/

theorem getLastD_cons (a d : AdRef) (xs : List AdRef) :
    ((a :: xs).getLast?).getD d = (xs.getLast?).getD a := by
  cases xs with
  | nil => rfl
  | cons b ys =>
    rw [List.getLast?_cons_cons]
    rcases h : (b :: ys).getLast? with _ | x
    · exact absurd (List.getLast?_eq_none_iff.1 h) (by simp)
    · rfl

theorem lastWithId_nil (k : List Char) (d : AdRef) : lastWithId [] k d = d := rfl

theorem lastWithId_cons_eq (a : AdRef) (r : List AdRef) (d : AdRef) :
    lastWithId (a :: r) a.id a = lastWithId r a.id a := by
  unfold lastWithId
  rw [List.filter_cons]
  simp only [beq_self_eq_true, if_pos]
  exact getLastD_cons a a _

theorem lastWithId_cons_of_eq (a : AdRef) (r : List AdRef) (k : List Char) (d : AdRef)
    (h : a.id = k) : lastWithId (a :: r) k d = lastWithId r k a := by
  unfold lastWithId
  rw [List.filter_cons]
  simp only [h, beq_self_eq_true, if_pos]
  exact getLastD_cons a d _

theorem lastWithId_cons_of_ne (a : AdRef) (r : List AdRef) (k : List Char) (d : AdRef)
    (h : ¬ a.id = k) : lastWithId (a :: r) k d = lastWithId r k d := by
  unfold lastWithId
  rw [List.filter_cons]
  simp [h]

theorem lastWithId_filter (pm : AdRef → Bool) (r : List AdRef) (k : List Char) (d : AdRef)
    (h : ∀ b, b.id = k → pm b = true) :
    lastWithId (r.filter pm) k d = lastWithId r k d := by
  unfold lastWithId
  have hf : List.filter (fun a => a.id == k && pm a) r
      = List.filter (fun a => a.id == k) r := by
    apply List.filter_congr
    intro b _
    by_cases hb : b.id = k
    · simp [hb, h b hb]
    · simp [hb]
  rw [List.filter_filter, hf]

theorem keyMem_update (m : List (List Char × AdRef)) (k : List Char) (v : AdRef)
    (k2 : List Char) :
    keyMem (m.map (fun e => if e.1 == k then (k, v) else e)) k2 = keyMem m k2 := by
  induction m with
  | nil => rfl
  | cons e m2 ih =>
    unfold keyMem at ih ⊢
    simp only [List.map_cons, List.any_cons]
    rw [ih]
    congr 1
    by_cases h1 : e.1 = k
    · simp [h1]
    · simp [h1]

theorem lastWithId_id (r : List AdRef) (k : List Char) (d : AdRef) (hd : d.id = k) :
    (lastWithId r k d).id = k := by
  unfold lastWithId
  rcases h : (r.filter (fun a => a.id == k)).getLast? with _ | x
  · rw [h]; exact hd
  · rw [h]
    have hx := List.mem_of_getLast?_eq_some h
    rw [List.mem_filter] at hx
    have h2 := hx.2
    simp only [beq_iff_eq] at h2
    exact h2

theorem foldl_mapSet_char :
    ∀ (l : List AdRef) (m : List (List Char × AdRef)),
    l.foldl (fun m2 ad => mapSet m2 ad.id ad) m
      = m.map (fun e => (e.1, lastWithId l e.1 e.2))
        ++ (dedupeKeepLast (l.filter (fun a => !(keyMem m a.id)))).map (fun a => (a.id, a)) := by
  intro l
  induction l with
  | nil =>
    intro m
    simp only [List.foldl_nil, List.filter_nil, dedupeKeepLast, List.map_nil,
      List.append_nil, lastWithId_nil]
    exact (List.map_id m).symm
  | cons a r ih =>
    intro m
    have hstep : (a :: r).foldl (fun m2 ad => mapSet m2 ad.id ad) m
        = r.foldl (fun m2 ad => mapSet m2 ad.id ad) (mapSet m a.id a) := rfl
    rw [hstep]
    by_cases hk : keyMem m a.id = true
    · have hms : mapSet m a.id a = m.map (fun e => if e.1 == a.id then (a.id, a) else e) := by
        unfold mapSet
        unfold keyMem at hk
        rw [if_pos hk]
      rw [hms, ih, List.map_map]
      have hmap : m.map ((fun e => (e.1, lastWithId r e.1 e.2))
            ∘ (fun e => if e.1 == a.id then (a.id, a) else e))
          = m.map (fun e => (e.1, lastWithId (a :: r) e.1 e.2)) := by
        apply List.map_congr_left
        intro e he
        by_cases h1 : e.1 = a.id
        · have : (e.1 == a.id) = true := by simp [h1]
          simp only [Function.comp, this, if_pos]
          rw [h1, lastWithId_cons_of_eq a r a.id e.2 rfl]
        · have : (e.1 == a.id) = false := by simp [h1]
          simp only [Function.comp, this, if_neg, Bool.false_eq_true, not_false_iff]
          rw [lastWithId_cons_of_ne a r e.1 e.2 (fun hEq => h1 hEq.symm)]
      rw [hmap]
      have hfil : r.filter
            (fun b => !(keyMem (m.map (fun e => if e.1 == a.id then (a.id, a) else e)) b.id))
          = r.filter (fun b => !(keyMem m b.id)) := by
        apply List.filter_congr
        intro b _
        rw [keyMem_update]
      rw [hfil]
      have hfa : (a :: r).filter (fun b => !(keyMem m b.id))
          = r.filter (fun b => !(keyMem m b.id)) := by
        rw [List.filter_cons]
        simp [hk]
      rw [hfa]
    · have hkf : keyMem m a.id = false := by simp at hk; simp [hk]
      have hms : mapSet m a.id a = m ++ [(a.id, a)] := by
        unfold mapSet
        unfold keyMem at hkf
        rw [hkf]
        simp
      rw [hms, ih, List.map_append]
      have hkm : ∀ k2, keyMem (m ++ [(a.id, a)]) k2 = (keyMem m k2 || (a.id == k2)) := by
        intro k2
        unfold keyMem
        simp
      have hfa : (a :: r).filter (fun b => !(keyMem m b.id))
          = a :: r.filter (fun b => !(keyMem m b.id)) := by
        rw [List.filter_cons]
        simp [hkf]
      rw [hfa]
      rw [show dedupeKeepLast (a :: r.filter (fun b => !(keyMem m b.id)))
          = lastWithId (a :: r.filter (fun b => !(keyMem m b.id))) a.id a
            :: dedupeKeepLast ((r.filter (fun b => !(keyMem m b.id))).filter
                (fun x => x.id != a.id)) from by rw [dedupeKeepLast]]
      have hh1 : lastWithId (a :: r.filter (fun b => !(keyMem m b.id))) a.id a
          = lastWithId r a.id a := by
        rw [lastWithId_cons_of_eq a _ a.id a rfl]
        apply lastWithId_filter
        intro b hb
        rw [hb, hkf]
        rfl
      rw [hh1]
      have ht : r.filter (fun b => !(keyMem (m ++ [(a.id, a)]) b.id))
          = (r.filter (fun b => !(keyMem m b.id))).filter (fun x => x.id != a.id) := by
        rw [List.filter_filter]
        apply List.filter_congr
        intro b _
        rw [hkm b.id]
        by_cases hba : b.id = a.id
        · simp [hba]
        · have h2 : (a.id == b.id) = false := by
            simp
            intro hEq
            exact hba hEq.symm
          have h3 : (b.id != a.id) = true := by simp [hba]
          rw [h2, h3]
          simp
      rw [ht]
      have hmm2 : m.map (fun e => (e.1, lastWithId r e.1 e.2))
          = m.map (fun e => (e.1, lastWithId (a :: r) e.1 e.2)) := by
        apply List.map_congr_left
        intro e he
        have hne : ¬ a.id = e.1 := by
          intro hEq
          unfold keyMem at hkf
          rw [List.any_eq_false] at hkf
          exact hkf e he (by simp [hEq])
        rw [lastWithId_cons_of_ne a r e.1 e.2 hne]
      rw [hmm2]
      simp
      exact (lastWithId_id r a.id a rfl).symm

theorem jsMapFrom_eq (l : List AdRef) : (jsMapFrom l).map Prod.snd = dedupeKeepLast l := by
  unfold jsMapFrom
  rw [foldl_mapSet_char l []]
  have h1 : l.filter (fun a => !(keyMem [] a.id)) = l := by
    apply List.filter_eq_self.2
    intro b _
    rfl
  rw [h1]
  simp
  have h2 : (Prod.snd ∘ fun a : AdRef => (a.id, a)) = id := rfl
  rw [h2, List.map_id]

/-! ## The claims -/

/-- C5: the Record Classifier's predicate is true iff `record.format` is
non-null and its lowercase form contains the substring "video"; in the
Detail Pipeline a record so classified is not appended to the output
record list and increments `videoAdsSkipped` (not `failedDetails`); a
record with `format = null` is not excluded. -/
theorem c5_classifier_gate :
    (∀ f : Option (List Char), isVideoAdJS f = true ↔
      ∃ s, f = some s ∧ containsSubstr (strL "video") (lowerStr s) = true) ∧
    (∀ (level : Nat) (cid : Option (List Char)) (st : PState) (c : CandStep) (ad : AdData),
      c.fetch = .ok ad → truthyS ad.headline = true → isVideoAdJS ad.adFormat = true →
      (processStep level cid st c).processedAds = st.processedAds ∧
      (processStep level cid st c).summary.videoAdsSkipped
          = st.summary.videoAdsSkipped + 1 ∧
      (processStep level cid st c).summary.failedDetails = st.summary.failedDetails) ∧
    (∀ (level : Nat) (cid : Option (List Char)) (st : PState) (c : CandStep) (ad : AdData),
      c.fetch = .ok ad → truthyS ad.headline = true → ad.adFormat = none →
      (processStep level cid st c).processedAds = st.processedAds ++ [ad] ∧
      (processStep level cid st c).summary.successfulDetails
          = st.summary.successfulDetails + 1) := by
  refine ⟨?_, ?_, ?_⟩
  · intro f
    cases f with
    | none => simp [isVideoAdJS]
    | some s =>
      by_cases hs : s.isEmpty
      · have hs2 : s = [] := List.isEmpty_iff.1 hs
        subst hs2
        simp [isVideoAdJS]
        decide
      · simp [isVideoAdJS, hs]
  · intro level cid st c ad hf hh hv
    obtain ⟨h1, h2, h3, h4, h5⟩ := processStep_char level cid st c
    have hcr : candRecord c = none := by simp [candRecord, hf, hh, hv]
    have hcf : candFailed c = false := by simp [candFailed, hf, hh]
    have hcv : candVideo c = true := by simp [candVideo, hf, hh, hv]
    refine ⟨?_, ?_, ?_⟩
    · rw [h2, hcr]; simp
    · rw [h5, hcv]; simp
    · rw [h4, hcf]; simp
  · intro level cid st c ad hf hh hfmt
    obtain ⟨h1, h2, h3, h4, h5⟩ := processStep_char level cid st c
    have hv : isVideoAdJS ad.adFormat = false := by simp [isVideoAdJS, hfmt]
    have hcr : candRecord c = some ad := by simp [candRecord, hf, hh, hv]
    refine ⟨?_, ?_⟩
    · rw [h2, hcr]; rfl
    · rw [h3, hcr]; simp

/-- C5 witness: a Record with `format = "Video Ad"` is skipped (counter
`videoAdsSkipped`, output list unchanged, `failedDetails` unchanged); a
Record with `format = null` is appended. -/
theorem c5_witness :
    (processStep 2 none initPState (okStep recVideo true)).summary.videoAdsSkipped
        = initPState.summary.videoAdsSkipped + 1 ∧
    (processStep 2 none initPState (okStep recVideo true)).processedAds
        = initPState.processedAds ∧
    (processStep 2 none initPState (okStep recVideo true)).summary.failedDetails
        = initPState.summary.failedDetails ∧
    (processStep 2 none initPState (okStep (recPlain "H") true)).processedAds
        = initPState.processedAds ++ [recPlain "H"] := by
  obtain ⟨h1, h2, h3⟩ := c5_classifier_gate
  have ha := h2 2 none initPState (okStep recVideo true) recVideo rfl (by decide) (by decide)
  have hb := h3 2 none initPState (okStep (recPlain "H") true) (recPlain "H") rfl
    (by decide) (by decide)
  exact ⟨ha.2.1, ha.1, ha.2.2, hb.1⟩

/-- C10: after every iteration of the per-candidate loop (each prefix of
the candidate list), `totalAdsProcessed = successfulDetails +
failedDetails + videoAdsSkipped`. -/
theorem c10_counter_invariant (level : Nat) (cid : Option (List Char))
    (cands : List CandStep) (n : Nat) :
    (runLoop level cid (cands.take n) initPState).summary.totalAdsProcessed
      = (runLoop level cid (cands.take n) initPState).summary.successfulDetails
        + (runLoop level cid (cands.take n) initPState).summary.failedDetails
        + (runLoop level cid (cands.take n) initPState).summary.videoAdsSkipped := by
  obtain ⟨h1, h2, h3, h4, h5⟩ := runLoop_char level cid (cands.take n) initPState
  rw [h1, h3, h4, h5]
  have ht := countP_trichotomy (cands.take n)
  simp only [initPState, initSummary]
  omega

/-- C6: every candidate's outcome is independent — the loop's record list
and counters are pointwise functions of the individual candidates — and
in the concrete 3-candidate run whose second fetch throws, the run
completes with `totalProcessed = 3`, `successfulDetails = 2`,
`failedDetails = 1`, and candidates 1 and 3 fully processed. -/
theorem c6_fault_isolation :
    (∀ (level : Nat) (cid : Option (List Char)) (cands : List CandStep),
      (runLoop level cid cands initPState).processedAds = cands.filterMap candRecord ∧
      (runLoop level cid cands initPState).summary.totalAdsProcessed = cands.length ∧
      (runLoop level cid cands initPState).summary.successfulDetails
          = cands.countP (fun c => (candRecord c).isSome) ∧
      (runLoop level cid cands initPState).summary.failedDetails
          = cands.countP candFailed) ∧
    ((runLoop 2 none [okStep (recPlain "H1") true, errStep, okStep (recPlain "H3") true]
        initPState).summary.totalAdsProcessed = 3 ∧
     (runLoop 2 none [okStep (recPlain "H1") true, errStep, okStep (recPlain "H3") true]
        initPState).summary.successfulDetails = 2 ∧
     (runLoop 2 none [okStep (recPlain "H1") true, errStep, okStep (recPlain "H3") true]
        initPState).summary.failedDetails = 1 ∧
     (runLoop 2 none [okStep (recPlain "H1") true, errStep, okStep (recPlain "H3") true]
        initPState).processedAds = [recPlain "H1", recPlain "H3"]) := by
  constructor
  · intro level cid cands
    obtain ⟨h1, h2, h3, h4, h5⟩ := runLoop_char level cid cands initPState
    refine ⟨?_, ?_, ?_, ?_⟩
    · rw [h2]; rfl
    · rw [h1]; simp [initPState, initSummary]
    · rw [h3]; simp [initPState, initSummary]
    · rw [h4]; simp [initPState, initSummary]
  · exact ⟨by decide, by decide, by decide, by decide⟩

/-- C1 counterexample: with group key "89771" and two records offering a
logo, a first *failed* companion fetch does not mark the key (the set
stays empty), so the second record triggers a second companion fetch —
two attempts in one run, refuting both "at most one companion fetch is
attempted" and "marked as fetched regardless of success or failure". -/
theorem c1_counterexample :
    PState.downloadedLogosByCompany
        (runLoop 3 (some (strL "89771")) [okStep recLogoOnly false] initPState) = [] ∧
    (runLoop 3 (some (strL "89771")) [okStep recLogoOnly false, okStep recLogoOnly true]
        initPState).logoAttempts = 2 := by
  exact ⟨by decide, by decide⟩

/-- C1 amended: the group key is added to `downloadedLogosByCompany` only
after a *successful* companion fetch (a failed attempt may retry on a
later record), and therefore every run performs at most one successful
companion fetch: the success count always equals the size of the set,
which never exceeds one. -/
theorem c1_logo_once (level : Nat) (cid : Option (List Char)) (cands : List CandStep) :
    (runLoop level cid cands initPState).logoSuccesses
        = (runLoop level cid cands initPState).downloadedLogosByCompany.length ∧
    (runLoop level cid cands initPState).logoSuccesses ≤ 1 := by
  have h := runLoop_logo_inv level cid cands initPState rfl (Or.inl rfl)
  refine ⟨h.1, ?_⟩
  rcases h.2 with h2 | ⟨cv, _, h2⟩
  · rw [h.1, h2]; simp
  · rw [h.1, h2]; simp

/-- C9: extraction is deterministic — the produced Record is a pure
function of the fetched page text and the URL: two lynx collaborators
that return the same text for a URL yield identical Records, and the
Record contains no run-varying field. -/
theorem c9_extract_deterministic
    (lynxA lynxB : List Char → Except (List Char) (List Char)) (adUrl : List Char)
    (h : lynxA adUrl = lynxB adUrl) :
    scrapeAdDetailsWithLynx lynxA adUrl = scrapeAdDetailsWithLynx lynxB adUrl := by
  unfold scrapeAdDetailsWithLynx
  rw [h]

/-- C9 witness: two different collaborators agreeing on one URL produce
the same Record there. -/
theorem c9_witness :
    scrapeAdDetailsWithLynx
        (fun u => if u = strL "https://x/ad-library/detail/7" then .ok mBlankPage
                  else .error (strL "down"))
        (strL "https://x/ad-library/detail/7")
      = scrapeAdDetailsWithLynx (fun _ => .ok mBlankPage)
          (strL "https://x/ad-library/detail/7") := by
  exact c9_extract_deterministic _ _ _ (by simp)

/-- C4 counterexample: a non-200 response is reported as an outcome entry
with an `error` field, but the destination file — created by
`fs.createWriteStream` before the status check and never unlinked on
this path — still exists afterwards, refuting "the partial local output
file at the destination path does not exist". -/
theorem c4_counterexample :
    (downloadAdImages (strL "downloaded_images") recImgOnly (strL "1_main.jpg")
        (.httpError 404 (strL "Not Found")) []).2
      = [⟨strL "main_image", some (strL "HTTP : Not Found"), recImgOnly.imageUrl,
          none, none, none⟩] ∧
    fsExists (downloadAdImages (strL "downloaded_images") recImgOnly (strL "1_main.jpg")
        (.httpError 404 (strL "Not Found")) []).1
      (pathJoin (strL "downloaded_images") (strL "1_main.jpg")) = true := by
  exact ⟨by decide, by decide⟩

/-- C4 amended: every failing fetch is reported as a single outcome entry
with an `error` field and never raises past `downloadAdImages`; only a
file-stream write error removes the destination file — after a non-200
status, a transport error, or a timeout the created file remains at the
destination path. -/
theorem c4_failure_handling :
    (∀ (dir fName : List Char) (ad : AdData) (fs : FS) (w m : List Char),
      truthyS ad.imageUrl = true →
      (downloadAdImages dir ad fName (.streamError w m) fs).2
        = [⟨strL "main_image", some m, ad.imageUrl, none, none, none⟩] ∧
      fsExists (downloadAdImages dir ad fName (.streamError w m) fs).1 (pathJoin dir fName)
        = false) ∧
    (∀ (dir fName : List Char) (ad : AdData) (fs : FS) (status : Nat) (m : List Char),
      truthyS ad.imageUrl = true →
      (∃ e, (downloadAdImages dir ad fName (.httpError status m) fs).2
        = [⟨strL "main_image", some e, ad.imageUrl, none, none, none⟩]) ∧
      fsExists (downloadAdImages dir ad fName (.httpError status m) fs).1
        (pathJoin dir fName) = true) ∧
    (∀ (dir fName : List Char) (ad : AdData) (fs : FS) (m : List Char),
      truthyS ad.imageUrl = true →
      (downloadAdImages dir ad fName (.transportError m) fs).2
        = [⟨strL "main_image", some m, ad.imageUrl, none, none, none⟩] ∧
      fsExists (downloadAdImages dir ad fName (.transportError m) fs).1
        (pathJoin dir fName) = true) ∧
    (∀ (dir fName : List Char) (ad : AdData) (fs : FS),
      truthyS ad.imageUrl = true →
      (downloadAdImages dir ad fName .timeout fs).2
        = [⟨strL "main_image", some (strL "Request timeout"), ad.imageUrl, none, none,
            none⟩] ∧
      fsExists (downloadAdImages dir ad fName .timeout fs).1 (pathJoin dir fName)
        = true) := by
  refine ⟨?_, ?_, ?_, ?_⟩
  · intro dir fName ad fs w m h
    unfold downloadAdImages downloadImage
    rw [if_pos h]
    exact ⟨rfl, fsExists_fsRemove _ _⟩
  · intro dir fName ad fs status m h
    unfold downloadAdImages downloadImage
    rw [if_pos h]
    exact ⟨⟨strL "HTTP : " ++ m, rfl⟩, fsExists_fsWrite _ _ _⟩
  · intro dir fName ad fs m h
    unfold downloadAdImages downloadImage
    rw [if_pos h]
    exact ⟨rfl, fsExists_fsWrite _ _ _⟩
  · intro dir fName ad fs h
    unfold downloadAdImages downloadImage
    rw [if_pos h]
    exact ⟨rfl, fsExists_fsWrite _ _ _⟩

/-- C4 witness: a mid-stream failure removes the destination file; a
timeout leaves it in place, and both are reported as error outcomes. -/
theorem c4_witness :
    fsExists (downloadAdImages (strL "d") recImgOnly (strL "f.jpg")
        (.streamError (strL "xy") (strL "boom")) []).1
      (pathJoin (strL "d") (strL "f.jpg")) = false ∧
    fsExists (downloadAdImages (strL "d") recImgOnly (strL "f.jpg") .timeout []).1
      (pathJoin (strL "d") (strL "f.jpg")) = true ∧
    (downloadAdImages (strL "d") recImgOnly (strL "f.jpg") .timeout []).2
      = [⟨strL "main_image", some (strL "Request timeout"), recImgOnly.imageUrl,
          none, none, none⟩] := by
  refine ⟨(c4_failure_handling.1 (strL "d") (strL "f.jpg") recImgOnly []
      (strL "xy") (strL "boom") (by decide)).2, ?_, ?_⟩
  · exact (c4_failure_handling.2.2.2 (strL "d") (strL "f.jpg") recImgOnly [] (by decide)).2
  · exact (c4_failure_handling.2.2.2 (strL "d") (strL "f.jpg") recImgOnly [] (by decide)).1

/-- C3 counterexample: the extracted headline of a concrete page is *not*
the spec's fully-cleaned text — the `&#x27;` escape survives, because the
headline chain decodes only `&quot;` and `&amp;`. -/
theorem c3_counterexample :
    (extractAdDetails mHead27 []).headline = some (strL "A&#x27;B") ∧
    (extractAdDetails mHead27 []).headline ≠ (headlineRaw mHead27).map cleanPerSpec := by
  exact ⟨by decide, by decide⟩

/-- C3 amended: each text field gets its own cleaning chain — headline:
trim, strip tags, decode only `&quot;` and `&amp;`; company: trim, strip
tags, truncate to 100, no entity decoding; imageAlt: decode only
`&quot;` and `&amp;`, no trim and no tag stripping; callToAction: trim
and strip tags only; only description receives the full cleaning the
spec states (trim, strip tags, all four entity escapes, blank-line
collapse), plus the `See more` cut. -/
theorem c3_cleaning (stdout adUrl : List Char) :
    (extractAdDetails stdout adUrl).headline = (headlineRaw stdout).map cleanHeadlineJS ∧
    (extractAdDetails stdout adUrl).company = (companyRaw stdout).map cleanCompanyJS ∧
    (extractAdDetails stdout adUrl).imageAlt = (imageAltRaw stdout).map cleanImageAltJS ∧
    (extractAdDetails stdout adUrl).cta = (searchGroup ctaPat stdout).map cleanCtaJS ∧
    (extractAdDetails stdout adUrl).description
      = (match searchGroup descPat stdout with
        | none => none
        | some m =>
          let d := jsTrim (cleanPerSpec m)
          if containsSubstr (strL "See more") d then
            some (jsTrim (takeUntilSub (strL "See more") d))
          else some d) := by
  refine ⟨rfl, rfl, rfl, rfl, ?_⟩
  show descriptionOf stdout = _
  unfold descriptionOf cleanPerSpec
  rfl

/-- C8: the company field takes the first match of its ordered rule
chain: when Rule 1 fails and Rule 2 matches, Rule 2's (cleaned) value is
returned; when no rule matches, the field is null. -/
theorem c8_company_fallback :
    (∀ (stdout adUrl v : List Char),
      searchGroup companyPat1 stdout = none → searchGroup companyPat2 stdout = some v →
      (extractAdDetails stdout adUrl).company = some (cleanCompanyJS v)) ∧
    (∀ (stdout adUrl : List Char),
      searchGroup companyPat1 stdout = none → searchGroup companyPat2 stdout = none →
      searchGroup companyPat3 stdout = none →
      (extractAdDetails stdout adUrl).company = none) := by
  constructor
  · intro stdout adUrl v h1 h2
    show (companyRaw stdout).map _ = _
    unfold companyRaw
    rw [h1, h2]
    rfl
  · intro stdout adUrl h1 h2 h3
    show (companyRaw stdout).map _ = _
    unfold companyRaw
    rw [h1, h2, h3]
    rfl

/-- C8 witness: concrete markup matching Rule 2 (organization-page label)
but not Rule 1 yields Rule 2's value "Acme Corp"; markup matching no rule
yields null. -/
theorem c8_witness :
    (extractAdDetails mCompany2 []).company = some (cleanCompanyJS (strL "Acme Corp")) ∧
    (extractAdDetails mBlankPage []).company = none := by
  exact ⟨c8_company_fallback.1 mCompany2 [] (strL "Acme Corp") (by decide) (by decide),
         c8_company_fallback.2 mBlankPage [] (by decide) (by decide) (by decide)⟩

/-- C7: the extractor is total (it is a function); every field other than
`adId` and `sourceUrl` depends only on the markup, so extraction
proceeds regardless of the URL; `adId` is exactly the `detail/(\d+)`
parse, and is null whenever the URL has no `detail/<digits>` segment;
every field whose rule chain produces no match is null. -/
theorem c7_extractor_safety :
    (∀ (stdout u1 u2 : List Char),
      (extractAdDetails stdout u1).headline = (extractAdDetails stdout u2).headline ∧
      (extractAdDetails stdout u1).company = (extractAdDetails stdout u2).company ∧
      (extractAdDetails stdout u1).imageUrl = (extractAdDetails stdout u2).imageUrl ∧
      (extractAdDetails stdout u1).imageAlt = (extractAdDetails stdout u2).imageAlt ∧
      (extractAdDetails stdout u1).targetUrl = (extractAdDetails stdout u2).targetUrl ∧
      (extractAdDetails stdout u1).description = (extractAdDetails stdout u2).description ∧
      (extractAdDetails stdout u1).logoUrl = (extractAdDetails stdout u2).logoUrl ∧
      (extractAdDetails stdout u1).adFormat = (extractAdDetails stdout u2).adFormat ∧
      (extractAdDetails stdout u1).cta = (extractAdDetails stdout u2).cta) ∧
    (∀ (stdout adUrl : List Char),
      (extractAdDetails stdout adUrl).adId = searchGroup detailIdPat adUrl) ∧
    (∀ adUrl : List Char, hasDetailDigits adUrl = false →
      ∀ stdout : List Char, (extractAdDetails stdout adUrl).adId = none) ∧
    (∀ (stdout adUrl : List Char),
      (extractAdDetails stdout adUrl).headline.isNone = (headlineRaw stdout).isNone ∧
      (extractAdDetails stdout adUrl).company.isNone = (companyRaw stdout).isNone ∧
      (extractAdDetails stdout adUrl).imageUrl.isNone
          = (searchGroup imagePat stdout).isNone ∧
      (extractAdDetails stdout adUrl).imageAlt.isNone = (imageAltRaw stdout).isNone ∧
      (extractAdDetails stdout adUrl).targetUrl.isNone = (targetRaw stdout).isNone ∧
      (searchGroup descPat stdout = none → (extractAdDetails stdout adUrl).description = none) ∧
      (extractAdDetails stdout adUrl).logoUrl.isNone = (logoRaw stdout).isNone ∧
      (extractAdDetails stdout adUrl).cta.isNone = (searchGroup ctaPat stdout).isNone) := by
  refine ⟨?_, ?_, ?_, ?_⟩
  · intro stdout u1 u2
    exact ⟨rfl, rfl, rfl, rfl, rfl, rfl, rfl, rfl, rfl⟩
  · intro stdout adUrl
    rfl
  · intro adUrl h stdout
    show searchGroup detailIdPat adUrl = none
    unfold searchGroup
    rw [searchPos_detail_none adUrl h]
    rfl
  · intro stdout adUrl
    refine ⟨?_, ?_, ?_, ?_, ?_, ?_, ?_, ?_⟩
    · show ((headlineRaw stdout).map _).isNone = _
      cases headlineRaw stdout <;> rfl
    · show ((companyRaw stdout).map _).isNone = _
      cases companyRaw stdout <;> rfl
    · show ((searchGroup imagePat stdout).map _).isNone = _
      cases searchGroup imagePat stdout <;> rfl
    · show ((imageAltRaw stdout).map _).isNone = _
      cases imageAltRaw stdout <;> rfl
    · show ((targetRaw stdout).map _).isNone = _
      cases targetRaw stdout <;> rfl
    · intro h
      show descriptionOf stdout = none
      unfold descriptionOf
      rw [h]
    · show ((logoRaw stdout).map _).isNone = _
      cases logoRaw stdout <;> rfl
    · show ((searchGroup ctaPat stdout).map _).isNone = _
      cases searchGroup ctaPat stdout <;> rfl

/-- C7 witness: a URL with no `detail/<digits>` segment yields a null id
on a concrete page. -/
theorem c7_witness :
    (extractAdDetails mBlankPage (strL "https://x/nothing")).adId = none := by
  exact c7_extractor_safety.2.2.1 (strL "https://x/nothing") (by decide) mBlankPage

/-- C2 counterexample: for anchors with ids `[5, 3, 5, 7]`, discovery
returns ids `[5, 3, 7]` in first-occurrence order, but the id-5 entry
carries the *second* id-5 anchor's URL, not the first occurrence's —
`new Map` overwrites the stored value on a repeated key. -/
theorem c2_counterexample :
    (scrapeAdListCore anchors5357 30).map AdRef.id = [strL "5", strL "3", strL "7"] ∧
    (scrapeAdListCore anchors5357 30).map AdRef.url
      = [strL "https://x/ad-library/detail/5?v=b", strL "https://x/ad-library/detail/3",
         strL "https://x/ad-library/detail/7"] ∧
    anchors5357.head? = some (anch "https://x/ad-library/detail/5?v=a") ∧
    strL "https://x/ad-library/detail/5?v=b" ≠ strL "https://x/ad-library/detail/5?v=a" := by
  exact ⟨by decide, by decide, by decide, by decide⟩

/-- C2 amended: discovery discards anchors with unparsable ids,
deduplicates by id keeping first-occurrence relative order but the
*last* occurrence's entry (URL), and truncates to the first
`maxCandidates` in that order — it equals the reference
`dedupeKeepLast` pipeline. -/
theorem c2_discovery (anchors : List Anchor) (maxAds : Nat) :
    scrapeAdListCore anchors maxAds
      = (dedupeKeepLast ((anchors.map toAdRef).filter (fun ad => !ad.id.isEmpty))).take
          maxAds := by
  show ((jsMapFrom ((anchors.map toAdRef).filter (fun ad => !ad.id.isEmpty))).map
      Prod.snd).take maxAds = _
  rw [jsMapFrom_eq]
